import Mathlib

/-!
Verification of the SecureNow request-body capture-and-redaction engine.

Shallow embedding of the core logic of `src/tracing.js` (the preload
`requestHook`), `src/nextjs-wrapper.js` (`captureRequestBody`,
`withSecureNow`) and the Next.js middleware variant
(`redactSensitiveData`, `redactGraphQLQuery`, `middleware`).

JavaScript strings are modelled as `List Char` / `String`; the
UTF-16-code-unit length that JS `String.prototype.length` reports is
modelled by `jsLength`, and the UTF-8 byte size of a string by
`utf8Length`.  Host builtins (`RegExp`, `JSON.parse`, `JSON.stringify`,
`URLSearchParams`) are modelled by executable Lean functions below, each
with a comment stating the modelling choices.
-/

/-- Left brace character, written via its code point. -/
def lbrace : Char := Char.ofNat 123

/-- Right brace character, written via its code point. -/
def rbrace : Char := Char.ofNat 125

/-- Does the character list `hay` start with `needle`? -/
def leadsWith : List Char → List Char → Bool
  | [], _ => true
  | _ :: _, [] => false
  | a :: as, b :: bs => a == b && leadsWith as bs

/-- Substring containment on character lists (model of JS `String.prototype.includes`). -/
def listHasSub (needle : List Char) : List Char → Bool
  | [] => needle.isEmpty
  | c :: cs => leadsWith needle (c :: cs) || listHasSub needle cs

/-- Model of JS `hay.includes(needle)`. -/
def hasSub (hay needle : String) : Bool :=
  listHasSub needle.toList hay.toList

/-- Model of JS `String.prototype.toLowerCase` (ASCII case folding suffices here). -/
def lowerStr (s : String) : String :=
  String.mk (s.toList.map Char.toLower)

/-- Number of UTF-16 code units a character occupies in a JS string. -/
def jsUnits (c : Char) : Nat :=
  if c.val < 0x10000 then 1 else 2

/-- UTF-16 code-unit count of a character list: what JS `s.length` reports. -/
def jsLength (cs : List Char) : Nat :=
  (cs.map jsUnits).sum

/-- UTF-8 byte size of one character. -/
def utf8Len (c : Char) : Nat :=
  if c.val < 0x80 then 1 else if c.val < 0x800 then 2 else
  if c.val < 0x10000 then 3 else 4

/-- UTF-8 byte size of a character list: the true byte length of the body. -/
def utf8Length (cs : List Char) : Nat :=
  (cs.map utf8Len).sum

/-- Model of JS `s.substring(0, n)` where `n` counts UTF-16 code units.
A character is kept only if it fits whole in the remaining budget
(surrogate-splitting of astral characters is not modelled; no claim
exercises it). -/
def jsTakeUnits (n : Nat) : List Char → List Char
  | [] => []
  | c :: cs => if jsUnits c ≤ n then c :: jsTakeUnits (n - jsUnits c) cs else []

/-- Model of JS `s.substring(0, n)` on strings. -/
def jsSubstr (s : String) (n : Nat) : String :=
  String.mk (jsTakeUnits n s.toList)

/-- The fixed redaction marker substituted for sensitive values. -/
def REDACTION_MARKER : String := "[REDACTED]"

/-- The built-in sensitive-field list shared by all integration variants
(`DEFAULT_SENSITIVE_FIELDS` in the source). -/
def DEFAULT_SENSITIVE_FIELDS : List String :=
  ["password", "passwd", "pwd", "secret", "token", "api_key", "apikey",
   "access_token", "auth", "credentials", "mysql_pwd", "stripeToken",
   "card", "cardnumber", "ccv", "cvc", "cvv", "ssn", "pin"]

/-- The sensitive-key test used by `redactSensitiveData`:
`sensitiveFields.some(field => lowerKey.includes(field.toLowerCase()))`. -/
def isSensitiveKey (fields : List String) (key : String) : Bool :=
  fields.any fun f => hasSub (lowerStr key) (lowerStr f)

-- Structured values produced by parsing JSON or form bodies
-- (the spec's `StructuredValue`).  `num` stores the numeric lexeme.
mutual
inductive JVal where
  | str (s : String)
  | num (s : String)
  | boolean (b : Bool)
  | null
  | arr (xs : JArr)
  | obj (kvs : JObj)
inductive JArr where
  | nil
  | cons (hd : JVal) (tl : JArr)
inductive JObj where
  | nil
  | cons (k : String) (v : JVal) (tl : JObj)
end

deriving instance DecidableEq for JVal
deriving instance DecidableEq for JArr
deriving instance DecidableEq for JObj

deriving instance DecidableEq for Except

/-- Build a `JArr` from a list, for readable concrete inputs. -/
def JArr.ofList : List JVal → JArr
  | [] => .nil
  | v :: vs => .cons v (JArr.ofList vs)

/-- Build a `JObj` from an association list, for readable concrete inputs. -/
def JObj.ofList : List (String × JVal) → JObj
  | [] => .nil
  | (k, v) :: kvs => .cons k v (JObj.ofList kvs)

/-- JS `typeof v === 'object' && v !== null`: true exactly for arrays and objects. -/
def isObjLike : JVal → Bool
  | .arr _ => true
  | .obj _ => true
  | _ => false

-- The structural redactor `redactSensitiveData(obj, sensitiveFields)` of the
-- source.  JS `for (const key in redacted)` iterates array indices as the
-- strings "0", "1", ..., so array elements are subject to the same
-- sensitive-key test on their decimal index.
mutual
def redactSensitiveData (v : JVal) (fields : List String) : JVal :=
  match v with
  | .arr xs => .arr (redactArrEntries fields 0 xs)
  | .obj kvs => .obj (redactObjEntries fields kvs)
  | other => other
def redactArrEntries (fields : List String) (i : Nat) : JArr → JArr
  | .nil => .nil
  | .cons x tl =>
    let x' := if isSensitiveKey fields (toString i) then JVal.str REDACTION_MARKER
      else if isObjLike x then redactSensitiveData x fields else x
    .cons x' (redactArrEntries fields (i + 1) tl)
def redactObjEntries (fields : List String) : JObj → JObj
  | .nil => .nil
  | .cons k v tl =>
    let v' := if isSensitiveKey fields k then JVal.str REDACTION_MARKER
      else if isObjLike v then redactSensitiveData v fields else v
    .cons k v' (redactObjEntries fields tl)
end

/-- JS regex whitespace class membership for the patterns below
(the common subset: space, tab, newline, carriage return, vertical tab,
form feed). -/
def isWsChar (c : Char) : Bool :=
  c == ' ' || c == '\t' || c == '\n' || c == '\r' ||
  c == Char.ofNat 11 || c == Char.ofNat 12

/-- A single or double quote character. -/
def isQuote (c : Char) : Bool :=
  c == Char.ofNat 34 || c == Char.ofNat 39

/-- One atom of a compiled field pattern: a literal character (matched
case-insensitively, stored lowercased) or the regex dot, which matches any
character except a newline. -/
inductive FAtom where
  | lit (c : Char)
  | anyc
deriving DecidableEq

/-- Characters this model of `new RegExp(field + ...)` does not support as
part of a field entry: interpolating them changes grouping or quantifier
structure, and an unbalanced one (such as a lone opening parenthesis) makes
the constructor throw a SyntaxError in JS. -/
def badRegexChars : List Char :=
  ['(', ')', '[', ']', '*', '+', '?', '|', Char.ofNat 92, '^', '$',
   lbrace, rbrace]

/-- Model of compiling the interpolated field entry of
`new RegExp(field + ...)`: the entry is spliced verbatim into the pattern,
so a dot matches any character, and metacharacters that would unbalance the
pattern make construction fail (model of the thrown SyntaxError). -/
def compileField (f : String) : Option (List FAtom) :=
  if f.toList.any (fun c => badRegexChars.contains c) then none
  else some (f.toList.map (fun c => if c == '.' then FAtom.anyc else FAtom.lit c.toLower))

/-- Match a compiled field pattern against the head of `cs`
(case-insensitive); returns the consumed characters and the rest. -/
def matchAtoms : List FAtom → List Char → Option (List Char × List Char)
  | [], rest => some ([], rest)
  | _ :: _, [] => none
  | FAtom.lit a :: as, x :: xs =>
    if x.toLower == a then
      match matchAtoms as xs with
      | some (g, r) => some (x :: g, r)
      | none => none
    else none
  | FAtom.anyc :: as, x :: xs =>
    if x == '\n' then none
    else
      match matchAtoms as xs with
      | some (g, r) => some (x :: g, r)
      | none => none

/-- Maximal run of regex whitespace at the head of the list. -/
def takeWsRun (cs : List Char) : List Char × List Char :=
  (cs.takeWhile isWsChar, cs.dropWhile isWsChar)

/-- Try the quoted-value pattern `(field\s*:\s*["'])([^"']+)(["'])` at the
head of `cs`.  On success returns the three capture groups and the rest:
(group 1, group 2, group 3, remainder). -/
def p1MatchAt (fp : List FAtom) (cs : List Char) : Option (List Char × List Char × List Char × List Char) :=
  match matchAtoms fp cs with
  | none => none
  | some (fc, r1) =>
    let (w1, r2) := takeWsRun r1
    match r2 with
    | [] => none
    | colon :: r3 =>
      if colon == ':' then
        let (w2, r4) := takeWsRun r3
        match r4 with
        | [] => none
        | q1 :: r5 =>
          if isQuote q1 then
            let val := r5.takeWhile (fun x => !isQuote x)
            let r6 := r5.dropWhile (fun x => !isQuote x)
            if val.isEmpty then none
            else
              match r6 with
              | q2 :: r7 => some (fc ++ w1 ++ [colon] ++ w2 ++ [q1], val, [q2], r7)
              | [] => none
          else none
      else none

/-- A character ending the unquoted-value run of the second pattern:
the class `[^\s,})\n]` excludes whitespace, comma, closing brace and
closing parenthesis. -/
def p2Stop (c : Char) : Bool :=
  isWsChar c || c == ',' || c == rbrace || c == ')'

/-- Try the unquoted-value pattern `(field\s*:\s*)([^\s,})\n]+)` at the
head of `cs`.  On success returns (group 1, group 2, remainder). -/
def p2MatchAt (fp : List FAtom) (cs : List Char) : Option (List Char × List Char × List Char) :=
  match matchAtoms fp cs with
  | none => none
  | some (fc, r1) =>
    let (w1, r2) := takeWsRun r1
    match r2 with
    | [] => none
    | colon :: r3 =>
      if colon == ':' then
        let (w2, r4) := takeWsRun r3
        let val := r4.takeWhile (fun x => !p2Stop x)
        let rest := r4.dropWhile (fun x => !p2Stop x)
        if val.isEmpty then none
        else some (fc ++ w1 ++ [colon] ++ w2, val, rest)
      else none

/-- Global replace with the quoted-value pattern.  The replace callback
receives (match, prefix, value, suffix); with three capture groups the
suffix parameter is the closing quote, always truthy, so the replacement is
always group 1, the marker, then the closing quote. -/
def replaceP1Go (fp : List FAtom) : Nat → List Char → List Char
  | 0, cs => cs
  | _ + 1, [] => []
  | fuel + 1, c :: cs =>
    match p1MatchAt fp (c :: cs) with
    | some (pre, _val, suf, rest) =>
      pre ++ REDACTION_MARKER.toList ++ suf ++ replaceP1Go fp fuel rest
    | none => c :: replaceP1Go fp fuel cs

/-- Global replace with the unquoted-value pattern.  The callback declares
(match, prefix, value, suffix) but this pattern has only two capture
groups, so the fourth parameter binds the match offset: JS `if (suffix)`
is false only when the match starts at offset 0, and otherwise the decimal
offset is appended after the marker.  `off` counts UTF-16 code units, as
JS string offsets do. -/
def replaceP2Go (fp : List FAtom) : Nat → Nat → List Char → List Char
  | 0, _, cs => cs
  | _ + 1, _, [] => []
  | fuel + 1, off, c :: cs =>
    match p2MatchAt fp (c :: cs) with
    | some (pre, val, rest) =>
      pre ++ REDACTION_MARKER.toList ++
      (if off == 0 then [] else (toString off).toList) ++
      replaceP2Go fp fuel (off + jsLength pre + jsLength val) rest
    | none => c :: replaceP2Go fp fuel (off + jsUnits c) cs

/-- Apply both patterns of one field, quoted-value pattern first, each as a
global replace over the whole accumulated text. -/
def applyFieldPatterns (fp : List FAtom) (cs : List Char) : List Char :=
  let cs1 := replaceP1Go fp (cs.length + 1) cs
  replaceP2Go fp (cs1.length + 1) 0 cs1

/-- The text-pattern redactor `redactGraphQLQuery(query, sensitiveFields)`
of the source.  An empty query is falsy in JS and returned unchanged; a
field entry whose pattern fails to compile makes the whole call throw,
modelled by `Except.error`. -/
def redactGraphQLQuery (query : String) (fields : List String) : Except Unit String :=
  if query == "" then Except.ok query
  else do
    let res ← fields.foldlM (fun acc f =>
      match compileField f with
      | none => Except.error ()
      | some fp => Except.ok (applyFieldPatterns fp acc)) query.toList
    Except.ok (String.mk res)

/-- JSON whitespace. -/
def isJsonWs (c : Char) : Bool :=
  c == ' ' || c == '\t' || c == '\n' || c == '\r'

/-- Drop leading JSON whitespace. -/
def skipWsJ (cs : List Char) : List Char :=
  cs.dropWhile isJsonWs

/-- Value of a hexadecimal digit. -/
def hexDigitVal (c : Char) : Option Nat :=
  if 48 ≤ c.toNat ∧ c.toNat ≤ 57 then some (c.toNat - 48)
  else if 97 ≤ c.toNat ∧ c.toNat ≤ 102 then some (c.toNat - 87)
  else if 65 ≤ c.toNat ∧ c.toNat ≤ 70 then some (c.toNat - 55)
  else none

/-- Parse the body of a JSON string literal after the opening quote,
decoding escapes; returns the content and the input after the closing
quote.  Raw control characters are rejected, as `JSON.parse` does. -/
def parseStringBody : Nat → List Char → Option (List Char × List Char)
  | 0, _ => none
  | _ + 1, [] => none
  | fuel + 1, c :: cs =>
    if c == Char.ofNat 34 then some ([], cs)
    else if c == Char.ofNat 92 then
      match cs with
      | [] => none
      | e :: cs2 =>
        let dec : Option (Char × List Char) :=
          if e == Char.ofNat 34 then some (Char.ofNat 34, cs2)
          else if e == Char.ofNat 92 then some (Char.ofNat 92, cs2)
          else if e == '/' then some ('/', cs2)
          else if e == 'b' then some (Char.ofNat 8, cs2)
          else if e == 'f' then some (Char.ofNat 12, cs2)
          else if e == 'n' then some ('\n', cs2)
          else if e == 'r' then some ('\r', cs2)
          else if e == 't' then some ('\t', cs2)
          else if e == 'u' then
            match cs2 with
            | h1 :: h2 :: h3 :: h4 :: cs3 =>
              match hexDigitVal h1, hexDigitVal h2, hexDigitVal h3, hexDigitVal h4 with
              | some a, some b, some c2, some d =>
                some (Char.ofNat (a * 4096 + b * 256 + c2 * 16 + d), cs3)
              | _, _, _, _ => none
            | _ => none
          else none
        match dec with
        | some (d, rest) =>
          match parseStringBody fuel rest with
          | some (s, r) => some (d :: s, r)
          | none => none
        | none => none
    else if c.toNat < 32 then none
    else
      match parseStringBody fuel cs with
      | some (s, r) => some (c :: s, r)
      | none => none

/-- Maximal run of decimal digits. -/
def takeDigitsRun (cs : List Char) : List Char × List Char :=
  (cs.takeWhile Char.isDigit, cs.dropWhile Char.isDigit)

/-- Lex a JSON number; returns its lexeme and the rest of the input. -/
def parseNumberLex (cs : List Char) : Option (List Char × List Char) :=
  let (negPart, cs1) :=
    match cs with
    | c :: r => if c == '-' then ([c], r) else (([] : List Char), cs)
    | [] => ([], cs)
  match cs1 with
  | [] => none
  | d :: r =>
    if !d.isDigit then none
    else if d == '0' && (match r with | c2 :: _ => c2.isDigit | [] => false) then none
    else
      let (intPart, afterInt) := if d == '0' then ([d], r) else takeDigitsRun (d :: r)
      let fracRes : Option (List Char × List Char) :=
        match afterInt with
        | p :: r2 =>
          if p == '.' then
            let (ds, r3) := takeDigitsRun r2
            if ds.isEmpty then none else some (p :: ds, r3)
          else some ([], afterInt)
        | [] => some ([], [])
      match fracRes with
      | none => none
      | some (fracPart, afterFrac) =>
        let expRes : Option (List Char × List Char) :=
          match afterFrac with
          | e :: r4 =>
            if e == 'e' || e == 'E' then
              let (signPart, r5) :=
                match r4 with
                | s :: r5a => if s == '+' || s == '-' then ([s], r5a) else (([] : List Char), r4)
                | [] => ([], r4)
              let (ds, r6) := takeDigitsRun r5
              if ds.isEmpty then none else some (e :: (signPart ++ ds), r6)
            else some ([], afterFrac)
          | [] => some ([], [])
        match expRes with
        | none => none
        | some (expPart, rest) => some (negPart ++ intPart ++ fracPart ++ expPart, rest)

-- Recursive-descent model of `JSON.parse`, fuel-indexed for termination.
-- Duplicate object keys are kept as parsed (no claim exercises them).
mutual
def parseVal : Nat → List Char → Option (JVal × List Char)
  | 0, _ => none
  | fuel + 1, cs =>
    match skipWsJ cs with
    | [] => none
    | c :: r =>
      if c == Char.ofNat 34 then
        match parseStringBody (r.length + 1) r with
        | some (s, rest) => some (JVal.str (String.mk s), rest)
        | none => none
      else if c == '[' then
        match skipWsJ r with
        | c2 :: r2 =>
          if c2 == ']' then some (JVal.arr JArr.nil, r2)
          else
            match parseArrItems fuel r with
            | some (xs, rest) => some (JVal.arr xs, rest)
            | none => none
        | [] => none
      else if c == lbrace then
        match skipWsJ r with
        | c2 :: r2 =>
          if c2 == rbrace then some (JVal.obj JObj.nil, r2)
          else
            match parseObjItems fuel r with
            | some (kvs, rest) => some (JVal.obj kvs, rest)
            | none => none
        | [] => none
      else if c == 't' then
        if leadsWith "rue".toList r then some (JVal.boolean true, r.drop 3) else none
      else if c == 'f' then
        if leadsWith "alse".toList r then some (JVal.boolean false, r.drop 4) else none
      else if c == 'n' then
        if leadsWith "ull".toList r then some (JVal.null, r.drop 3) else none
      else
        match parseNumberLex (c :: r) with
        | some (lex, rest) => some (JVal.num (String.mk lex), rest)
        | none => none
def parseArrItems : Nat → List Char → Option (JArr × List Char)
  | 0, _ => none
  | fuel + 1, cs =>
    match parseVal fuel cs with
    | none => none
    | some (v, rest) =>
      match skipWsJ rest with
      | c :: r2 =>
        if c == ',' then
          match parseArrItems fuel r2 with
          | some (xs, rest2) => some (JArr.cons v xs, rest2)
          | none => none
        else if c == ']' then some (JArr.cons v JArr.nil, r2)
        else none
      | [] => none
def parseObjItems : Nat → List Char → Option (JObj × List Char)
  | 0, _ => none
  | fuel + 1, cs =>
    match skipWsJ cs with
    | c :: r =>
      if c == Char.ofNat 34 then
        match parseStringBody (r.length + 1) r with
        | some (k, r2) =>
          match skipWsJ r2 with
          | c2 :: r3 =>
            if c2 == ':' then
              match parseVal fuel r3 with
              | some (v, r4) =>
                match skipWsJ r4 with
                | c3 :: r5 =>
                  if c3 == ',' then
                    match parseObjItems fuel r5 with
                    | some (kvs, r6) => some (JObj.cons (String.mk k) v kvs, r6)
                    | none => none
                  else if c3 == rbrace then some (JObj.cons (String.mk k) v JObj.nil, r5)
                  else none
                | [] => none
              | none => none
            else none
          | [] => none
        | none => none
      else none
    | [] => none
end

/-- Model of `JSON.parse`: parse one value and require only whitespace to
remain.  The fuel bound is generous for every input a request can carry. -/
def parseJson (s : String) : Option JVal :=
  match parseVal (2 * s.toList.length + 16) s.toList with
  | some (v, rest) => if (skipWsJ rest).isEmpty then some v else none
  | none => none

/-- Escape one character for a JSON string literal, as `JSON.stringify`
does. -/
def escChar (c : Char) : List Char :=
  if c == Char.ofNat 34 then [Char.ofNat 92, Char.ofNat 34]
  else if c == Char.ofNat 92 then [Char.ofNat 92, Char.ofNat 92]
  else if c == '\n' then [Char.ofNat 92, 'n']
  else if c == '\r' then [Char.ofNat 92, 'r']
  else if c == '\t' then [Char.ofNat 92, 't']
  else if c == Char.ofNat 8 then [Char.ofNat 92, 'b']
  else if c == Char.ofNat 12 then [Char.ofNat 92, 'f']
  else if c.toNat < 32 then
    let hex := fun (n : Nat) => if n < 10 then Char.ofNat (48 + n) else Char.ofNat (87 + n - 10)
    [Char.ofNat 92, 'u', '0', '0', hex (c.toNat / 16), hex (c.toNat % 16)]
  else [c]

-- Model of `JSON.stringify` on parsed values.
mutual
def stringifyJson : JVal → List Char
  | .str s => Char.ofNat 34 :: ((s.toList.map escChar).flatten ++ [Char.ofNat 34])
  | .num s => s.toList
  | .boolean true => "true".toList
  | .boolean false => "false".toList
  | .null => "null".toList
  | .arr xs => '[' :: (stringifyArr xs ++ [']'])
  | .obj kvs => lbrace :: (stringifyObj kvs ++ [rbrace])
def stringifyArr : JArr → List Char
  | .nil => []
  | .cons v tl =>
    stringifyJson v ++ (match tl with | .nil => [] | .cons _ _ => ',' :: stringifyArr tl)
def stringifyObj : JObj → List Char
  | .nil => []
  | .cons k v tl =>
    (Char.ofNat 34 :: ((k.toList.map escChar).flatten ++ [Char.ofNat 34, ':'])) ++
    stringifyJson v ++ (match tl with | .nil => [] | .cons _ _ _ => ',' :: stringifyObj tl)
end

/-- Split a character list on a separator, keeping empty segments. -/
def splitOnChar (sep : Char) : List Char → List (List Char)
  | [] => [[]]
  | c :: cs =>
    let rest := splitOnChar sep cs
    if c == sep then [] :: rest
    else
      match rest with
      | seg :: segs => (c :: seg) :: segs
      | [] => [[c]]

/-- Form-decoding of one token: `+` becomes a space.  Percent-escapes are
not modelled (no claim exercises them). -/
def formDecode (cs : List Char) : List Char :=
  cs.map (fun c => if c == '+' then ' ' else c)

/-- Model of `new URLSearchParams(body)`: split on `&`, drop empty
segments, split each segment at its first `=` (a segment without `=` is a
key with empty value). -/
def parseFormPairs (cs : List Char) : List (String × String) :=
  (splitOnChar '&' cs).filterMap fun seg =>
    if seg.isEmpty then none
    else
      let k := seg.takeWhile (fun c => c != '=')
      let rest := seg.dropWhile (fun c => c != '=')
      let v := rest.drop 1
      some (String.mk (formDecode k), String.mk (formDecode v))

/-- Model of `Object.fromEntries`: property order is first occurrence of a
key, its value the last one written. -/
def fromEntriesForm (pairs : List (String × String)) : List (String × String) :=
  pairs.foldl (fun acc p =>
    if acc.any (fun q => q.1 == p.1)
    then acc.map (fun q => if q.1 == p.1 then (q.1, p.2) else q)
    else acc ++ [p]) []

/-- A parsed form body as a structured value: a flat mapping of strings. -/
def parseFormToJVal (cs : List Char) : JVal :=
  JVal.obj (JObj.ofList ((fromEntriesForm (parseFormPairs cs)).map fun p => (p.1, JVal.str p.2)))

/-- A span attribute value: string, number or boolean. -/
inductive AttrVal where
  | s (v : String)
  | n (v : Nat)
  | b (v : Bool)
deriving DecidableEq

/-- The attribute list of the active span, in the order the attributes were
set. -/
abbrev SpanState := List (String × AttrVal)

/-- Model of `span.setAttribute(k, v)`. -/
def setAttr (sp : SpanState) (k : String) (v : AttrVal) : SpanState :=
  sp ++ [(k, v)]

/-- Read back an attribute: the last write to a key wins. -/
def lookupAttr (sp : SpanState) (k : String) : Option AttrVal :=
  (sp.reverse.find? (fun p => p.1 == k)).map (fun p => p.2)

/-- The immutable per-process capture configuration (the spec's
`CaptureConfig`): `captureBody` from `SECURENOW_CAPTURE_BODY`,
`maxBodySize` from `SECURENOW_MAX_BODY_SIZE` (default 10240), and `fields`
the concatenation of the built-in list with the extra fields of
`SECURENOW_SENSITIVE_FIELDS`. -/
structure CaptureConfig where
  captureBody : Bool
  maxBodySize : Nat
  fields : List String
deriving DecidableEq

/-- The `allSensitiveFields` construction of the source. -/
def mkAllSensitiveFields (custom : List String) : List String :=
  DEFAULT_SENSITIVE_FIELDS ++ custom

/-- `['POST', 'PUT', 'PATCH'].includes(request.method)`. -/
def isBodyMethod (m : String) : Bool :=
  m == "POST" || m == "PUT" || m == "PATCH"

/-- The size-exceeded placeholder written in place of the body. -/
def tooLargeMsg (n : Nat) : String :=
  "[TOO LARGE: " ++ toString n ++ " bytes]"

/-- Total byte size accumulated by the data handler of the preload variant
(`size += chunk.length` over Buffer chunks). -/
def totalByteSize (chunks : List (List Char)) : Nat :=
  (chunks.map utf8Length).sum

/-- The chunks the data handler pushes: a chunk is kept when the running
total including it is still within the budget. -/
def keptChunksAux (max : Nat) : Nat → List (List Char) → List (List Char)
  | _, [] => []
  | size, c :: cs =>
    let size' := size + utf8Length c
    if size' ≤ max then c :: keptChunksAux max size' cs
    else keptChunksAux max size' cs

/-- Chunks retained by the preload variant's stream listener. -/
def keptChunks (max : Nat) (chunks : List (List Char)) : List (List Char) :=
  keptChunksAux max 0 chunks

/-- The content-type dispatch of the preload variant's end handler
(`src/tracing.js`, the inner try of `requestHook`): GraphQL redaction, JSON
parse-and-redact, or form parse-and-redact; any exception in the region
(a JSON parse error, or a throwing `redactGraphQLQuery`) is caught and
degraded to a 1000-unit raw prefix plus a parse-error flag. -/
def requestHookDispatch (cfg : CaptureConfig) (ct : String) (body : String) (size : Nat) (sp : SpanState) : SpanState :=
  let attempt : Except Unit SpanState :=
    if hasSub ct "application/graphql" then
      match redactGraphQLQuery body cfg.fields with
      | .error e => .error e
      | .ok redacted =>
        .ok (setAttr (setAttr (setAttr sp
          "http.request.body" (.s (jsSubstr redacted cfg.maxBodySize)))
          "http.request.body.type" (.s "graphql"))
          "http.request.body.size" (.n size))
    else if hasSub ct "application/json" then
      match parseJson body with
      | none => .error ()
      | some parsed =>
        let redacted := redactSensitiveData parsed cfg.fields
        .ok (setAttr (setAttr (setAttr sp
          "http.request.body" (.s (jsSubstr (String.mk (stringifyJson redacted)) cfg.maxBodySize)))
          "http.request.body.type" (.s "json"))
          "http.request.body.size" (.n size))
    else if hasSub ct "application/x-www-form-urlencoded" then
      let parsed := parseFormToJVal body.toList
      let redacted := redactSensitiveData parsed cfg.fields
      .ok (setAttr (setAttr (setAttr sp
        "http.request.body" (.s (jsSubstr (String.mk (stringifyJson redacted)) cfg.maxBodySize)))
        "http.request.body.type" (.s "form"))
        "http.request.body.size" (.n size))
    else .ok sp
  match attempt with
  | .ok sp' => sp'
  | .error _ =>
    setAttr (setAttr sp "http.request.body" (.s (jsSubstr body 1000)))
      "http.request.body.parse_error" (.b true)

/-- The preload variant's `requestHook` of `src/tracing.js`, given the
request method, content-type header and the stream's data chunks.  The
source's `if (size <= max && chunks.length > 0) A else if (size > max) B`
is written as nested conditionals with the same meaning. -/
def requestHook (cfg : CaptureConfig) (method ct : String) (chunks : List (List Char)) (sp : SpanState) : SpanState :=
  if cfg.captureBody && isBodyMethod method then
    if hasSub ct "application/json" || hasSub ct "application/graphql" ||
       hasSub ct "application/x-www-form-urlencoded" then
      let size := totalByteSize chunks
      let kept := keptChunks cfg.maxBodySize chunks
      if size ≤ cfg.maxBodySize then
        if kept.isEmpty then sp
        else requestHookDispatch cfg ct (String.mk kept.flatten) size sp
      else
        setAttr (setAttr sp "http.request.body" (.s (tooLargeMsg size)))
          "http.request.body.size" (.n size)
    else if hasSub ct "multipart/form-data" then
      setAttr (setAttr (setAttr sp
        "http.request.body" (.s "[MULTIPART - NOT CAPTURED]"))
        "http.request.body.type" (.s "multipart"))
        "http.request.body.note" (.s "File uploads not captured by design")
    else sp
  else sp

/-- A fetch-style request as the Next.js variants see it: method, the
content-type header, the UTF-8-decoded text of the underlying body stream,
and whether that single-read stream has already been consumed. -/
structure Request where
  method : String
  contentType : Option String
  bodyText : List Char
  bodyConsumed : Bool
deriving DecidableEq

/-- Model of `request.clone()`: throws if the body is already disturbed;
otherwise returns the untouched original together with an independent
fresh copy. -/
def cloneReq (r : Request) : Except Unit (Request × Request) :=
  if r.bodyConsumed then Except.error ()
  else Except.ok (r, { r with bodyConsumed := false })

/-- Model of `await request.text()`: rejects if the stream is consumed;
otherwise yields the full body text and marks the stream consumed. -/
def readText (r : Request) : Except Unit (List Char × Request) :=
  if r.bodyConsumed then Except.error ()
  else Except.ok (r.bodyText, { r with bodyConsumed := true })

/-- The handler-wrapper variant's `captureRequestBody` of
`src/nextjs-wrapper.js`.  Returns the state of the original request as the
host framework will see it, together with the updated active span (if
any).  The outer try/catch of the source is modelled at the two operations
in its range that can throw, `clone()` and `text()`: on failure capture is
skipped silently.  The inner try around `JSON.parse` degrades a parse
failure to the fixed `[INVALID JSON]` attribute. -/
def captureRequestBody (cfg : CaptureConfig) (r : Request) (span : Option SpanState) : Request × Option SpanState :=
  if !cfg.captureBody then (r, span)
  else if !isBodyMethod r.method then (r, span)
  else
    match span with
    | none => (r, none)
    | some sp =>
      let ct := r.contentType.getD ""
      if !(hasSub ct "application/json" || hasSub ct "application/graphql" ||
           hasSub ct "application/x-www-form-urlencoded") then
        (r, some sp)
      else
        match cloneReq r with
        | .error _ => (r, some sp)
        | .ok (r1, c) =>
          match readText c with
          | .error _ => (r1, some sp)
          | .ok (txt, _) =>
            if jsLength txt > cfg.maxBodySize then
              (r1, some (setAttr (setAttr sp
                "http.request.body" (.s (tooLargeMsg (jsLength txt))))
                "http.request.body.size" (.n (jsLength txt))))
            else if hasSub ct "application/json" || hasSub ct "application/graphql" then
              match parseJson (String.mk txt) with
              | some parsed =>
                let redacted := redactSensitiveData parsed cfg.fields
                (r1, some (setAttr (setAttr (setAttr sp
                  "http.request.body" (.s (jsSubstr (String.mk (stringifyJson redacted)) cfg.maxBodySize)))
                  "http.request.body.type" (.s (if hasSub ct "graphql" then "graphql" else "json")))
                  "http.request.body.size" (.n (jsLength txt))))
              | none => (r1, some (setAttr sp "http.request.body" (.s "[INVALID JSON]")))
            else
              let parsed := parseFormToJVal txt
              let redacted := redactSensitiveData parsed cfg.fields
              (r1, some (setAttr (setAttr (setAttr sp
                "http.request.body" (.s (jsSubstr (String.mk (stringifyJson redacted)) cfg.maxBodySize)))
                "http.request.body.type" (.s "form"))
                "http.request.body.size" (.n (jsLength txt))))

/-- The wrapper `withSecureNow(handler)` of `src/nextjs-wrapper.js`:
launches capture (whose failures are swallowed) and calls the original
handler on the same request object. -/
def withSecureNow {α : Type} (handler : Request → α) (cfg : CaptureConfig) (r : Request) (span : Option SpanState) : α × Option SpanState :=
  let res := captureRequestBody cfg r span
  (handler res.1, res.2)

/-- The Next.js middleware variant (`middleware` of the
`nextjs-middleware` module).  When no span is active one is created, used
and ended inside the middleware, so the caller's active span stays absent;
that created span's attributes are not observable and are discarded here.
The try/catch of the source is modelled at the operations in its range
that can throw: `clone()`, `text()`/`formData()` and a throwing
`redactGraphQLQuery`. -/
def middleware (cfg : CaptureConfig) (r : Request) (span : Option SpanState) : Request × Option SpanState :=
  if !isBodyMethod r.method then (r, span)
  else
    let sp := span.getD []
    let step : Request × SpanState :=
      let ct := r.contentType.getD ""
      if hasSub ct "application/json" || hasSub ct "application/graphql" then
        match cloneReq r with
        | .error _ => (r, sp)
        | .ok (r1, c) =>
          match readText c with
          | .error _ => (r1, sp)
          | .ok (txt, _) =>
            if jsLength txt ≤ cfg.maxBodySize then
              let rb : Except Unit String :=
                if hasSub ct "application/graphql" then
                  redactGraphQLQuery (String.mk txt) cfg.fields
                else
                  match parseJson (String.mk txt) with
                  | some parsed =>
                    Except.ok (String.mk (stringifyJson (redactSensitiveData parsed cfg.fields)))
                  | none => Except.ok (String.mk txt)
              match rb with
              | .error _ => (r1, sp)
              | .ok redactedBody =>
                (r1, setAttr (setAttr (setAttr sp
                  "http.request.body" (.s (jsSubstr redactedBody cfg.maxBodySize)))
                  "http.request.body.type" (.s (if hasSub ct "graphql" then "graphql" else "json")))
                  "http.request.body.size" (.n (jsLength txt)))
            else
              (r1, setAttr sp "http.request.body" (.s (tooLargeMsg (jsLength txt))))
      else if hasSub ct "application/x-www-form-urlencoded" then
        match cloneReq r with
        | .error _ => (r, sp)
        | .ok (r1, c) =>
          match readText c with
          | .error _ => (r1, sp)
          | .ok (txt, _) =>
            let parsed := parseFormToJVal txt
            let redacted := redactSensitiveData parsed cfg.fields
            (r1, setAttr (setAttr (setAttr sp
              "http.request.body" (.s (jsSubstr (String.mk (stringifyJson redacted)) cfg.maxBodySize)))
              "http.request.body.type" (.s "form"))
              "http.request.body.size" (.n (jsLength (stringifyJson parsed))))
      else if hasSub ct "multipart/form-data" then
        (r, setAttr (setAttr sp
          "http.request.body" (.s "[MULTIPART - NOT CAPTURED]"))
          "http.request.body.type" (.s "multipart"))
      else (r, sp)
    match span with
    | none => (step.1, none)
    | some _ => (step.1, some step.2)

/-- A concrete JSON login request used as witness input. -/
def reqW : Request :=
  { method := "POST", contentType := some "application/json",
    bodyText := "\x7b\"username\":\"john\",\"password\":\"secret123\"\x7d".toList,
    bodyConsumed := false }

/-- A concrete enabled configuration used as witness input. -/
def cfgW : CaptureConfig :=
  { captureBody := true, maxBodySize := 10240, fields := DEFAULT_SENSITIVE_FIELDS }

/-- Is a value exactly the redaction-marker string? -/
def isMarker : JVal → Bool
  | .str s => s == REDACTION_MARKER
  | _ => false

-- The redaction contract of claim C2 as amended, stated as a relation
-- between input and output, written from the claim's words: the output
-- has the same container type as the input at every nesting level;
-- a mapping keeps the same keys in the same order, the value of a
-- sensitive key becomes the marker whatever its type, other container
-- values are related recursively and other scalars are unchanged; a
-- sequence keeps its length, and (since the implementation iterates
-- array indices as keys) an element whose decimal index is sensitive
-- becomes the marker, other elements being treated like mapping values.
mutual
def RedactedFrom (fields : List String) : JVal → JVal → Bool
  | .obj kvs, .obj kvs' => RedactedObj fields kvs kvs'
  | .arr xs, .arr xs' => RedactedArr fields 0 xs xs'
  | .str a, .str b => a == b
  | .num a, .num b => a == b
  | .boolean a, .boolean b => a == b
  | .null, .null => true
  | _, _ => false
def RedactedArr (fields : List String) (i : Nat) : JArr → JArr → Bool
  | .nil, .nil => true
  | .cons x tl, .cons x' tl' =>
    (if isSensitiveKey fields (toString i) then isMarker x'
     else if isObjLike x then RedactedFrom fields x x' else x == x') &&
    RedactedArr fields (i + 1) tl tl'
  | _, _ => false
def RedactedObj (fields : List String) : JObj → JObj → Bool
  | .nil, .nil => true
  | .cons k v tl, .cons k' v' tl' =>
    k == k' &&
    (if isSensitiveKey fields k then isMarker v'
     else if isObjLike v then RedactedFrom fields v v' else v == v') &&
    RedactedObj fields tl tl'
  | _, _ => false
end

/-- The spec's example GraphQL mutation. -/
def gqlExample : String :=
  "mutation Login \x7b login(username: \"john\", password: \"secret123\") \x7b token \x7d \x7d"

/-- The classified payload format driving parser dispatch. -/
inductive ContentKind where
  | json
  | graphql
  | form
  | multipart
  | unsupported
deriving DecidableEq

/-- The content-type classification of the source: substring tests with
JS `includes` on the header value exactly as received (the code never
lowercases it), in the dispatch order of the preload variant (graphql
before json before form, multipart otherwise). -/
def classify (ct : String) : ContentKind :=
  if hasSub ct "application/graphql" then ContentKind.graphql
  else if hasSub ct "application/json" then ContentKind.json
  else if hasSub ct "application/x-www-form-urlencoded" then ContentKind.form
  else if hasSub ct "multipart/form-data" then ContentKind.multipart
  else ContentKind.unsupported

/-- A small-budget configuration used by the C3 instances. -/
def cfgC3 : CaptureConfig :=
  { captureBody := true, maxBodySize := 3, fields := DEFAULT_SENSITIVE_FIELDS }

/-- An oversized concrete request for the middleware. -/
def reqC3 : Request :=
  { method := "POST", contentType := some "application/json",
    bodyText := "aaaaa".toList, bodyConsumed := false }

/-- The wrapper's request carrying the same malformed JSON body. -/
def reqC7 : Request :=
  { method := "POST", contentType := some "application/json",
    bodyText := [lbrace], bodyConsumed := false }

/-- The C10 witness body: a 5-character JSON array whose UTF-8 encoding is
6 bytes. -/
def bodyC10 : List Char := "[\"é\"]".toList

/-- The C10 witness configuration: a 5-unit budget. -/
def cfgC10 : CaptureConfig :=
  { captureBody := true, maxBodySize := 5, fields := DEFAULT_SENSITIVE_FIELDS }

/-- A span extended by zero attributes. -/
theorem spanExt0 (sp : SpanState) : ∃ a, sp = sp ++ a :=
  ⟨[], (List.append_nil sp).symm⟩

/-- A span extended by one attribute. -/
theorem spanExt1 (sp : SpanState) (k1 : String) (v1 : AttrVal) :
    ∃ a, setAttr sp k1 v1 = sp ++ a :=
  ⟨[(k1, v1)], rfl⟩

/-- A span extended by two attributes. -/
theorem spanExt2 (sp : SpanState) (k1 : String) (v1 : AttrVal) (k2 : String) (v2 : AttrVal) :
    ∃ a, setAttr (setAttr sp k1 v1) k2 v2 = sp ++ a :=
  ⟨[(k1, v1), (k2, v2)], by simp [setAttr]⟩

/-- A span extended by three attributes. -/
theorem spanExt3 (sp : SpanState) (k1 : String) (v1 : AttrVal) (k2 : String) (v2 : AttrVal)
    (k3 : String) (v3 : AttrVal) :
    ∃ a, setAttr (setAttr (setAttr sp k1 v1) k2 v2) k3 v3 = sp ++ a :=
  ⟨[(k1, v1), (k2, v2), (k3, v3)], by simp [setAttr]⟩

/-- A successful `clone()` hands back the original request untouched. -/
theorem cloneReq_ok_eq (r r1 c : Request) (h : cloneReq r = Except.ok (r1, c)) : r1 = r := by
  unfold cloneReq at h
  split at h
  · simp at h
  · injection h with h1
    exact (congrArg Prod.fst h1).symm

/-- The wrapper's capture never changes the state of the original request:
the only operation it applies to it is `clone()`. -/
theorem captureRequestBody_fst (cfg : CaptureConfig) (r : Request) (span : Option SpanState) :
    (captureRequestBody cfg r span).1 = r := by
  unfold captureRequestBody
  repeat' split
  all_goals try (have hr := cloneReq_ok_eq r _ _ (by assumption); subst hr)
  all_goals try dsimp only []
  all_goals repeat' split
  all_goals rfl

/-- The middleware never changes the state of the original request. -/
theorem middleware_fst (cfg : CaptureConfig) (r : Request) (span : Option SpanState) :
    (middleware cfg r span).1 = r := by
  unfold middleware
  repeat' split
  all_goals try (have hr := cloneReq_ok_eq r _ _ (by assumption); subst hr)
  all_goals try dsimp only []
  all_goals repeat' split
  all_goals rfl

/-- The end-handler dispatch only appends attributes to the span. -/
theorem requestHookDispatch_append (cfg : CaptureConfig) (ct body : String) (size : Nat) (sp : SpanState) :
    ∃ attrs, requestHookDispatch cfg ct body size sp = sp ++ attrs := by
  unfold requestHookDispatch
  repeat' split
  all_goals try dsimp only []
  all_goals repeat' split
  all_goals first
    | exact spanExt0 _
    | exact spanExt1 _ _ _
    | exact spanExt2 _ _ _ _ _
    | exact spanExt3 _ _ _ _ _ _ _

/-- The preload variant's hook only appends attributes to the span. -/
theorem requestHook_append (cfg : CaptureConfig) (method ct : String) (chunks : List (List Char)) (sp : SpanState) :
    ∃ attrs, requestHook cfg method ct chunks sp = sp ++ attrs := by
  unfold requestHook
  repeat' split
  all_goals try dsimp only []
  all_goals repeat' split
  all_goals first
    | exact spanExt0 _
    | exact spanExt1 _ _ _
    | exact spanExt2 _ _ _ _ _
    | exact spanExt3 _ _ _ _ _ _ _
    | exact requestHookDispatch_append _ _ _ _ _

/-- With no active span, the wrapper's capture leaves none behind. -/
theorem captureRequestBody_snd_none (cfg : CaptureConfig) (r : Request) :
    (captureRequestBody cfg r none).2 = none := by
  unfold captureRequestBody
  repeat' split
  all_goals first | rfl | simp_all

/-- The wrapper's capture only appends attributes to the active span. -/
theorem captureRequestBody_snd_append (cfg : CaptureConfig) (r : Request) (sp : SpanState) :
    ∃ attrs, (captureRequestBody cfg r (some sp)).2 = some (sp ++ attrs) := by
  unfold captureRequestBody
  try dsimp only []
  repeat' split
  all_goals try dsimp only []
  all_goals repeat' split
  all_goals first
    | exact Exists.imp (fun a h => congrArg some h) (spanExt0 _)
    | exact Exists.imp (fun a h => congrArg some h) (spanExt1 _ _ _)
    | exact Exists.imp (fun a h => congrArg some h) (spanExt2 _ _ _ _ _)
    | exact Exists.imp (fun a h => congrArg some h) (spanExt3 _ _ _ _ _ _ _)

/-- With no active span, the middleware creates, uses and ends its own
span, so the caller's active span stays absent. -/
theorem middleware_snd_none (cfg : CaptureConfig) (r : Request) :
    (middleware cfg r none).2 = none := by
  unfold middleware
  repeat' split
  all_goals first | rfl | simp_all

/-- The middleware only appends attributes to the active span. -/
theorem middleware_snd_append (cfg : CaptureConfig) (r : Request) (sp : SpanState) :
    ∃ attrs, (middleware cfg r (some sp)).2 = some (sp ++ attrs) := by
  unfold middleware
  try dsimp only []
  repeat' split
  all_goals try dsimp only []
  all_goals repeat' split
  all_goals first
    | exact Exists.imp (fun a h => congrArg some h) (spanExt0 _)
    | exact Exists.imp (fun a h => congrArg some h) (spanExt1 _ _ _)
    | exact Exists.imp (fun a h => congrArg some h) (spanExt2 _ _ _ _ _)
    | exact Exists.imp (fun a h => congrArg some h) (spanExt3 _ _ _ _ _ _ _)

/-- Claim C1: after the clone-based capture orchestrators (the wrapper's
`captureRequestBody` and the middleware) have run on a request whose body
stream is untouched, the original request is unchanged and its body stream
is still fully readable by the host framework's handler, yielding the full
body text exactly as if capture had never run; the body was obtained only
through the clone duplication primitive, and the only side effect is
appending attributes to the active span. -/
theorem c1_capture_noninterference (cfg : CaptureConfig) (r : Request) (sp : SpanState)
    (h : r.bodyConsumed = false) :
    (captureRequestBody cfg r (some sp)).1 = r ∧
    readText (captureRequestBody cfg r (some sp)).1 =
      Except.ok (r.bodyText, { r with bodyConsumed := true }) ∧
    (∃ attrs, (captureRequestBody cfg r (some sp)).2 = some (sp ++ attrs)) ∧
    (middleware cfg r (some sp)).1 = r ∧
    readText (middleware cfg r (some sp)).1 =
      Except.ok (r.bodyText, { r with bodyConsumed := true }) ∧
    (∃ attrs, (middleware cfg r (some sp)).2 = some (sp ++ attrs)) := by
  refine ⟨captureRequestBody_fst cfg r (some sp), ?_, captureRequestBody_snd_append cfg r sp,
         middleware_fst cfg r (some sp), ?_, middleware_snd_append cfg r sp⟩
  · rw [captureRequestBody_fst]
    simp [readText, h]
  · rw [middleware_fst]
    simp [readText, h]

/-- Witness for C1 at a concrete login request. -/
theorem c1_witness :
    reqW.bodyConsumed = false ∧
    ((captureRequestBody cfgW reqW (some [])).1 = reqW ∧
     readText (captureRequestBody cfgW reqW (some [])).1 =
       Except.ok (reqW.bodyText, { reqW with bodyConsumed := true }) ∧
     (∃ attrs, (captureRequestBody cfgW reqW (some [])).2 = some ([] ++ attrs)) ∧
     (middleware cfgW reqW (some [])).1 = reqW ∧
     readText (middleware cfgW reqW (some [])).1 =
       Except.ok (reqW.bodyText, { reqW with bodyConsumed := true }) ∧
     (∃ attrs, (middleware cfgW reqW (some [])).2 = some ([] ++ attrs))) :=
  ⟨rfl, c1_capture_noninterference cfgW reqW [] rfl⟩

/-- Claim C6: every exception raised inside the capture orchestrators is
caught and swallowed at the orchestrator boundary: for every input
(including already-consumed streams and malformed bodies) the wrapped
handler still receives the original request and produces its own response,
and a failing step degrades only to missing or placeholder span
attributes — the span is only ever extended, never an error raised on the
request path.  The same holds for the preload variant's hook. -/
theorem c6_capture_never_throws {α : Type} (handler : Request → α) (cfg : CaptureConfig)
    (r : Request) (sp : SpanState) :
    (withSecureNow handler cfg r none).1 = handler r ∧
    (withSecureNow handler cfg r none).2 = none ∧
    (withSecureNow handler cfg r (some sp)).1 = handler r ∧
    (∃ attrs, (withSecureNow handler cfg r (some sp)).2 = some (sp ++ attrs)) ∧
    (∀ (method ct : String) (chunks : List (List Char)) (s : SpanState),
      ∃ attrs, requestHook cfg method ct chunks s = s ++ attrs) := by
  refine ⟨?_, ?_, ?_, ?_, fun m ct chunks s => requestHook_append cfg m ct chunks s⟩
  · show handler (captureRequestBody cfg r none).1 = handler r
    rw [captureRequestBody_fst]
  · exact captureRequestBody_snd_none cfg r
  · show handler (captureRequestBody cfg r (some sp)).1 = handler r
    rw [captureRequestBody_fst]
  · exact captureRequestBody_snd_append cfg r sp

/-- Redaction preserves the head constructor of a value. -/
theorem isObjLike_redact (fields : List String) (v : JVal) :
    isObjLike (redactSensitiveData v fields) = isObjLike v := by
  cases v <;> rfl

-- The implementation satisfies the amended redaction contract.
mutual
theorem redactedFrom_redact (fields : List String) : (v : JVal) →
    RedactedFrom fields v (redactSensitiveData v fields) = true
  | .str s => by simp [RedactedFrom, redactSensitiveData]
  | .num s => by simp [RedactedFrom, redactSensitiveData]
  | .boolean b => by simp [RedactedFrom, redactSensitiveData]
  | .null => rfl
  | .arr xs => redactedArr_redact fields 0 xs
  | .obj kvs => redactedObj_redact fields kvs
theorem redactedArr_redact (fields : List String) (i : Nat) : (xs : JArr) →
    RedactedArr fields i xs (redactArrEntries fields i xs) = true
  | .nil => rfl
  | .cons x tl => by
    have ht := redactedArr_redact fields (i + 1) tl
    cases hs : isSensitiveKey fields (toString i) with
    | true => simp [RedactedArr, redactArrEntries, hs, ht, isMarker]
    | false =>
      cases ho : isObjLike x with
      | true => simp [RedactedArr, redactArrEntries, hs, ho, ht, redactedFrom_redact fields x]
      | false => simp [RedactedArr, redactArrEntries, hs, ho, ht]
theorem redactedObj_redact (fields : List String) : (kvs : JObj) →
    RedactedObj fields kvs (redactObjEntries fields kvs) = true
  | .nil => rfl
  | .cons k v tl => by
    have ht := redactedObj_redact fields tl
    cases hs : isSensitiveKey fields k with
    | true => simp [RedactedObj, redactObjEntries, hs, ht, isMarker]
    | false =>
      cases ho : isObjLike v with
      | true => simp [RedactedObj, redactObjEntries, hs, ho, ht, redactedFrom_redact fields v]
      | false => simp [RedactedObj, redactObjEntries, hs, ho, ht]
end

/-- Claim C2, corrected: `redactSensitiveData` satisfies the amended
redaction contract for every structured value and sensitive-field set:
container types, key order and sequence lengths are preserved, sensitive
mapping keys (and, because array indices are iterated as keys, sequence
elements whose decimal index is sensitive) become the marker whatever
their original type, and every other scalar is unchanged.  The embedding
is purely functional, so the input value is not mutated. -/
theorem c2_redaction_contract (fields : List String) (v : JVal) :
    RedactedFrom fields v (redactSensitiveData v fields) = true :=
  redactedFrom_redact fields v

/-- Counterexample to claim C2 as stated: a scalar that is not the value
of any mapping key is nevertheless replaced when an extra sensitive field
equal to its decimal array index ("0") is configured, so "every other
scalar is unchanged" fails. -/
theorem c2_counterexample :
    redactSensitiveData (JVal.arr (JArr.ofList [JVal.str "hello"]))
        (DEFAULT_SENSITIVE_FIELDS ++ ["0"]) ≠
      JVal.arr (JArr.ofList [JVal.str "hello"]) := by
  decide

-- Re-redacting already-redacted output is a no-op for the structural
-- redactor, by mutual structural induction.
mutual
theorem redact_idem (fields : List String) : (v : JVal) →
    redactSensitiveData (redactSensitiveData v fields) fields = redactSensitiveData v fields
  | .str s => rfl
  | .num s => rfl
  | .boolean b => rfl
  | .null => rfl
  | .arr xs => congrArg JVal.arr (redactArr_idem fields 0 xs)
  | .obj kvs => congrArg JVal.obj (redactObj_idem fields kvs)
theorem redactArr_idem (fields : List String) (i : Nat) : (xs : JArr) →
    redactArrEntries fields i (redactArrEntries fields i xs) = redactArrEntries fields i xs
  | .nil => rfl
  | .cons x tl => by
    have ht := redactArr_idem fields (i + 1) tl
    cases hs : isSensitiveKey fields (toString i) with
    | true => simp [redactArrEntries, hs, ht]
    | false =>
      cases ho : isObjLike x with
      | true => simp [redactArrEntries, hs, ho, ht, isObjLike_redact, redact_idem fields x]
      | false => simp [redactArrEntries, hs, ho, ht]
theorem redactObj_idem (fields : List String) : (kvs : JObj) →
    redactObjEntries fields (redactObjEntries fields kvs) = redactObjEntries fields kvs
  | .nil => rfl
  | .cons k v tl => by
    have ht := redactObj_idem fields tl
    cases hs : isSensitiveKey fields k with
    | true => simp [redactObjEntries, hs, ht]
    | false =>
      cases ho : isObjLike v with
      | true => simp [redactObjEntries, hs, ho, ht, isObjLike_redact, redact_idem fields v]
      | false => simp [redactObjEntries, hs, ho, ht]
end

/-- Claim C8, corrected: the structural redactor is idempotent for every
value and sensitive-field set.  (The text-pattern redactor is not, see the
counterexample.) -/
theorem c8_redact_idempotent (fields : List String) (v : JVal) :
    redactSensitiveData (redactSensitiveData v fields) fields = redactSensitiveData v fields :=
  redact_idem fields v

set_option maxRecDepth 100000 in
/-- Counterexample to claim C8 as stated: `redactGraphQLQuery` is not
idempotent.  The unquoted-value pattern's replace callback appends the
match offset after the marker; a second application sees offsets shifted
by the first rewrite and produces a different string. -/
theorem c8_counterexample :
    redactGraphQLQuery "a password: x password: y" DEFAULT_SENSITIVE_FIELDS =
      Except.ok "a password: [REDACTED]2 password: [REDACTED]14" ∧
    redactGraphQLQuery "a password: [REDACTED]2 password: [REDACTED]14" DEFAULT_SENSITIVE_FIELDS =
      Except.ok "a password: [REDACTED]2 password: [REDACTED]24" ∧
    ("a password: [REDACTED]2 password: [REDACTED]14" : String) ≠
      "a password: [REDACTED]2 password: [REDACTED]24" :=
  ⟨by decide, by decide, by decide⟩

set_option maxRecDepth 100000 in
/-- Claim C5: evaluating the code on the spec's example shows the bug.
The quoted-value pattern first produces the documented
`password: "[REDACTED]"`, but the unquoted-value pattern then re-matches
that text; its replace callback declares a third `suffix` parameter that,
with only two capture groups, binds the match offset (41 here), so the
final output strips the quotes and appends the offset — not the
quote-preserving substitution the claim, the spec and the repository's own
redaction-examples document describe. -/
theorem c5_code_bug_eval :
    redactGraphQLQuery gqlExample DEFAULT_SENSITIVE_FIELDS =
      Except.ok "mutation Login \x7b login(username: \"john\", password: [REDACTED]41) \x7b token \x7d \x7d" ∧
    redactGraphQLQuery gqlExample DEFAULT_SENSITIVE_FIELDS ≠
      Except.ok "mutation Login \x7b login(username: \"john\", password: \"[REDACTED]\") \x7b token \x7d \x7d" :=
  ⟨by decide, by decide⟩

set_option maxRecDepth 100000 in
/-- Claim C9: a sensitive-field entry is interpolated verbatim into the
regular expression.  An entry containing an unbalanced metacharacter such
as "(" makes pattern construction throw, so the function errors instead
of returning a string; and an entry containing "." is matched as a regex
pattern — the entry "a.c" redacts the argument named `aXc` even though the
literal text "a.c" never occurs. -/
theorem c9_regex_interpolation :
    redactGraphQLQuery "q: \"v\"" ["("] = Except.error () ∧
    redactGraphQLQuery "aXc: \"v\"" ["a.c"] = Except.ok "aXc: [REDACTED]" :=
  ⟨by decide, by decide⟩

/-- Claim C4, corrected: classification is substring-based on the raw
header value, case-sensitively — a header contains each lowercase token or
it does not classify as that kind.  This characterizes `classify`
completely. -/
theorem c4_classify_characterization (ct : String) :
    (classify ct = ContentKind.graphql ↔ hasSub ct "application/graphql" = true) ∧
    (classify ct = ContentKind.json ↔
      (hasSub ct "application/json" = true ∧ hasSub ct "application/graphql" = false)) ∧
    (classify ct = ContentKind.form ↔
      (hasSub ct "application/x-www-form-urlencoded" = true ∧
       hasSub ct "application/json" = false ∧ hasSub ct "application/graphql" = false)) ∧
    (classify ct = ContentKind.multipart ↔
      (hasSub ct "multipart/form-data" = true ∧
       hasSub ct "application/x-www-form-urlencoded" = false ∧
       hasSub ct "application/json" = false ∧ hasSub ct "application/graphql" = false)) ∧
    (classify ct = ContentKind.unsupported ↔
      (hasSub ct "multipart/form-data" = false ∧
       hasSub ct "application/x-www-form-urlencoded" = false ∧
       hasSub ct "application/json" = false ∧ hasSub ct "application/graphql" = false)) := by
  unfold classify
  cases h1 : hasSub ct "application/graphql" <;>
    cases h2 : hasSub ct "application/json" <;>
      cases h3 : hasSub ct "application/x-www-form-urlencoded" <;>
        cases h4 : hasSub ct "multipart/form-data" <;>
          simp_all

/-- Counterexample to claim C4 as stated: the header value is never
lowercased, so `Application/JSON` does not classify as json — it is
unsupported. -/
theorem c4_counterexample :
    classify "Application/JSON" = ContentKind.unsupported ∧
    classify "Application/JSON" ≠ ContentKind.json :=
  ⟨by decide, by decide⟩

/-- A chunk list wholly within budget is kept in full by the data
listener. -/
theorem keptChunksAux_all (max : Nat) : (cs : List (List Char)) → (size : Nat) →
    size + totalByteSize cs ≤ max → keptChunksAux max size cs = cs
  | [], _, _ => rfl
  | c :: cs, size, h => by
    have hc : totalByteSize (c :: cs) = utf8Length c + totalByteSize cs := by
      simp [totalByteSize]
    have h1 : size + utf8Length c ≤ max := by omega
    have h2 : size + utf8Length c + totalByteSize cs ≤ max := by omega
    simp [keptChunksAux, h1, keptChunksAux_all max cs (size + utf8Length c) h2]

/-- Claim C3, corrected (stated for the preload variant, the claim's
primary source): for every body whose byte length exceeds the budget, the
hook sets exactly the placeholder body attribute and the original byte
size — parsing and redaction are skipped and no raw content is written.
(The middleware variant records only the placeholder; see the
counterexample.) -/
theorem c3_too_large (cfg : CaptureConfig) (method ct : String) (chunks : List (List Char))
    (sp : SpanState)
    (hcb : cfg.captureBody = true)
    (hm : isBodyMethod method = true)
    (hgate : (hasSub ct "application/json" || hasSub ct "application/graphql" ||
              hasSub ct "application/x-www-form-urlencoded") = true)
    (hsize : totalByteSize chunks > cfg.maxBodySize) :
    requestHook cfg method ct chunks sp =
      sp ++ [("http.request.body", AttrVal.s (tooLargeMsg (totalByteSize chunks))),
             ("http.request.body.size", AttrVal.n (totalByteSize chunks))] := by
  have hns : ¬ (totalByteSize chunks ≤ cfg.maxBodySize) := by omega
  unfold requestHook
  simp [hcb, hm, hgate, hns, setAttr]

/-- Witness for C3 at a concrete 4-byte body against a 3-byte budget. -/
theorem c3_witness :
    cfgC3.captureBody = true ∧
    isBodyMethod "POST" = true ∧
    (hasSub "application/json" "application/json" ||
     hasSub "application/json" "application/graphql" ||
     hasSub "application/json" "application/x-www-form-urlencoded") = true ∧
    totalByteSize [['a', 'b', 'c', 'd']] > cfgC3.maxBodySize ∧
    requestHook cfgC3 "POST" "application/json" [['a', 'b', 'c', 'd']] [] =
      [] ++ [("http.request.body", AttrVal.s (tooLargeMsg (totalByteSize [['a', 'b', 'c', 'd']]))),
             ("http.request.body.size", AttrVal.n (totalByteSize [['a', 'b', 'c', 'd']]))] :=
  ⟨rfl, by decide, by decide, by decide,
   c3_too_large cfgC3 "POST" "application/json" [['a', 'b', 'c', 'd']] []
     rfl (by decide) (by decide) (by decide)⟩

/-- Counterexample to claim C3 as stated: the middleware variant sets only
the placeholder on an oversized body — no `http.request.body.size`
attribute is recorded, against the claim's "the span still records the
original byte size". -/
theorem c3_counterexample :
    lookupAttr ((middleware cfgC3 reqC3 (some [])).2.getD []) "http.request.body.size" = none ∧
    lookupAttr ((middleware cfgC3 reqC3 (some [])).2.getD []) "http.request.body" =
      some (AttrVal.s "[TOO LARGE: 5 bytes]") :=
  ⟨by decide, by decide⟩

/-- Claim C7, corrected (stated for the preload variant, its primary
source): when the content kind is json and parsing fails, capture does not
fail entirely — the hook sets the body attribute to the first 1000 units
of the raw body text and sets the parse-error flag.  (The wrapper instead
writes the fixed `[INVALID JSON]` placeholder with no flag, and the
middleware keeps the raw text with no flag; see the counterexample.) -/
theorem c7_parse_error (cfg : CaptureConfig) (method ct : String) (chunks : List (List Char))
    (sp : SpanState)
    (hcb : cfg.captureBody = true)
    (hm : isBodyMethod method = true)
    (hj : hasSub ct "application/json" = true)
    (hg : hasSub ct "application/graphql" = false)
    (hsize : totalByteSize chunks ≤ cfg.maxBodySize)
    (hne : chunks ≠ [])
    (hparse : parseJson (String.mk chunks.flatten) = none) :
    requestHook cfg method ct chunks sp =
      sp ++ [("http.request.body", AttrVal.s (jsSubstr (String.mk chunks.flatten) 1000)),
             ("http.request.body.parse_error", AttrVal.b true)] := by
  have hk : keptChunks cfg.maxBodySize chunks = chunks :=
    keptChunksAux_all cfg.maxBodySize chunks 0 (by omega)
  have hne2 : chunks.isEmpty = false := by
    cases chunks with
    | nil => exact absurd rfl hne
    | cons c cs => rfl
  unfold requestHook requestHookDispatch keptChunks at *
  simp [hcb, hm, hj, hg, hsize, hk, hne2, hparse, setAttr]

/-- Witness for C7: a malformed one-byte JSON body (a lone opening brace)
within the budget. -/
theorem c7_witness :
    cfgW.captureBody = true ∧
    isBodyMethod "POST" = true ∧
    hasSub "application/json" "application/json" = true ∧
    hasSub "application/json" "application/graphql" = false ∧
    totalByteSize [[lbrace]] ≤ cfgW.maxBodySize ∧
    ([[lbrace]] : List (List Char)) ≠ [] ∧
    parseJson (String.mk ([[lbrace]] : List (List Char)).flatten) = none ∧
    requestHook cfgW "POST" "application/json" [[lbrace]] [] =
      [] ++ [("http.request.body", AttrVal.s (jsSubstr (String.mk ([[lbrace]] : List (List Char)).flatten) 1000)),
             ("http.request.body.parse_error", AttrVal.b true)] :=
  ⟨rfl, by decide, by decide, by decide, by decide, by decide, by decide,
   c7_parse_error cfgW "POST" "application/json" [[lbrace]] []
     rfl (by decide) (by decide) (by decide) (by decide) (by decide) (by decide)⟩

/-- Counterexample to claim C7 as stated: on a malformed JSON body within
budget, the wrapper variant writes the fixed placeholder `[INVALID JSON]`
— not a prefix of the raw body — and sets no parse-error flag. -/
theorem c7_counterexample :
    lookupAttr ((captureRequestBody cfgW reqC7 (some [])).2.getD [])
      "http.request.body.parse_error" = none ∧
    lookupAttr ((captureRequestBody cfgW reqC7 (some [])).2.getD [])
      "http.request.body" = some (AttrVal.s "[INVALID JSON]") :=
  ⟨by decide, by decide⟩

/-- Claim C10: in the clone-based variants the size guard and the reported
`http.request.body.size` use the UTF-16 length of the decoded body text,
not its byte length.  Whenever that character length is within the budget
the body is captured (shown for the middleware on a GraphQL body and the
wrapper on a JSON body) and the recorded size is the character count; the
witness instantiates this with a body whose UTF-8 byte length exceeds the
budget. -/
theorem c10_char_length_size_guard (cfg : CaptureConfig) (body : List Char) (sp : SpanState)
    (v : JVal) (rb : String)
    (hlen : jsLength body ≤ cfg.maxBodySize)
    (hgql : redactGraphQLQuery (String.mk body) cfg.fields = Except.ok rb)
    (hcb : cfg.captureBody = true)
    (hparse : parseJson (String.mk body) = some v) :
    (middleware cfg
        { method := "POST", contentType := some "application/graphql",
          bodyText := body, bodyConsumed := false } (some sp)).2 =
      some (sp ++ [("http.request.body", AttrVal.s (jsSubstr rb cfg.maxBodySize)),
                   ("http.request.body.type", AttrVal.s "graphql"),
                   ("http.request.body.size", AttrVal.n (jsLength body))]) ∧
    (captureRequestBody cfg
        { method := "POST", contentType := some "application/json",
          bodyText := body, bodyConsumed := false } (some sp)).2 =
      some (sp ++ [("http.request.body",
                    AttrVal.s (jsSubstr (String.mk (stringifyJson (redactSensitiveData v cfg.fields)))
                      cfg.maxBodySize)),
                   ("http.request.body.type", AttrVal.s "json"),
                   ("http.request.body.size", AttrVal.n (jsLength body))]) := by
  have e1 : hasSub "application/graphql" "application/json" = false := by decide
  have e2 : hasSub "application/graphql" "application/graphql" = true := by decide
  have e3 : hasSub "application/graphql" "graphql" = true := by decide
  have e4 : hasSub "application/json" "application/json" = true := by decide
  have e5 : hasSub "application/json" "application/graphql" = false := by decide
  have e6 : hasSub "application/json" "graphql" = false := by decide
  have hngt : ¬ (jsLength body > cfg.maxBodySize) := by omega
  constructor
  · unfold middleware
    simp [e1, e2, e3, cloneReq, readText, isBodyMethod, hlen, hgql, setAttr]
  · unfold captureRequestBody
    simp [e4, e5, e6, cloneReq, readText, isBodyMethod, hcb, hngt, hparse, setAttr]

/-- Witness for C10: the body's character length (5) is within the budget
while its UTF-8 byte length (6) exceeds it, and both clone-based variants
capture it, reporting the character count as the size. -/
theorem c10_witness :
    jsLength bodyC10 ≤ cfgC10.maxBodySize ∧
    utf8Length bodyC10 > cfgC10.maxBodySize ∧
    redactGraphQLQuery (String.mk bodyC10) cfgC10.fields = Except.ok "[\"é\"]" ∧
    cfgC10.captureBody = true ∧
    parseJson (String.mk bodyC10) = some (JVal.arr (JArr.ofList [JVal.str "é"])) ∧
    ((middleware cfgC10
        { method := "POST", contentType := some "application/graphql",
          bodyText := bodyC10, bodyConsumed := false } (some [])).2 =
      some ([] ++ [("http.request.body", AttrVal.s (jsSubstr "[\"é\"]" cfgC10.maxBodySize)),
                   ("http.request.body.type", AttrVal.s "graphql"),
                   ("http.request.body.size", AttrVal.n (jsLength bodyC10))]) ∧
     (captureRequestBody cfgC10
        { method := "POST", contentType := some "application/json",
          bodyText := bodyC10, bodyConsumed := false } (some [])).2 =
      some ([] ++ [("http.request.body",
                    AttrVal.s (jsSubstr (String.mk (stringifyJson
                      (redactSensitiveData (JVal.arr (JArr.ofList [JVal.str "é"])) cfgC10.fields)))
                      cfgC10.maxBodySize)),
                   ("http.request.body.type", AttrVal.s "json"),
                   ("http.request.body.size", AttrVal.n (jsLength bodyC10))])) :=
  ⟨by decide, by decide, by decide, rfl, by decide,
   c10_char_length_size_guard cfgC10 bodyC10 [] (JVal.arr (JArr.ofList [JVal.str "é"])) "[\"é\"]"
     (by decide) (by decide) rfl (by decide)⟩
